import Mathlib

/-
Verification of the goods CMS backend (src/index.js, the CMS variant serving
/api/goods, /api/categories and /api/total).

The embedding is shallow: the synchronous request-handling logic is translated
to pure Lean functions.  The JSON database file is modeled by passing the
stored collection (the parsed content of the db file) explicitly as a
`List GoodsRec`; `writeFileSync` is modeled by the mutating operations
returning the collection as it stands on disk after the call, paired with the
value returned (or the ApiError thrown) by the JS function.  JS numbers that
arise in this code path are either integers or NaN (the only non-integer
producer reachable here is `parseInt`, which yields an integer or NaN), so
they are modeled as `Option Int` with `none` playing NaN.
-/

namespace CMS

/-! ### JavaScript string and number primitives used by index.js -/

/-- Whitespace test used by the JS `trim` and `parseInt` models. -/
def jsWhite (c : Char) : Bool := c.isWhitespace

/-- Model of `String.prototype.trim`: drop whitespace from both ends. -/
def jsTrim (s : String) : String :=
  String.mk (((s.data.dropWhile jsWhite).reverse.dropWhile jsWhite).reverse)

/-- Model of `String.prototype.toLowerCase` on the ASCII range. -/
def jsToLower (s : String) : String := String.mk (s.data.map Char.toLower)

/-- Character-list helper: does the second list start with the first? -/
def isPrefixCh : List Char → List Char → Bool
  | [], _ => true
  | _ :: _, [] => false
  | a :: as, b :: bs => a == b && isPrefixCh as bs

/-- Model of `String.prototype.startsWith` (and of the anchored regexes
`^data:image` and `^image\/` used by `isImageBase64` / `isImageURL`). -/
def jsStartsWith (s pat : String) : Bool := isPrefixCh pat.data s.data

/-- Character-list helper: does the needle occur contiguously in the hay? -/
def includesCh (needle : List Char) : List Char → Bool
  | [] => needle.isEmpty
  | b :: bs => isPrefixCh needle (b :: bs) || includesCh needle bs

/-- Model of `String.prototype.includes`. -/
def jsIncludes (hay needle : String) : Bool := includesCh needle.data hay.data

/-- Model of `String.prototype.split` with a one-character separator:
`"".split(c)` is `[""]`, and separators delimit (possibly empty) fields. -/
def splitCh (c : Char) : List Char → List (List Char)
  | [] => [[]]
  | a :: as =>
    if a = c then [] :: splitCh c as
    else
      match splitCh c as with
      | [] => [[a]]
      | h :: t => (a :: h) :: t

/-- String-level wrapper for `splitCh`. -/
def jsSplit (c : Char) (s : String) : List String := (splitCh c s.data).map String.mk

/-- JS numbers reachable in this code are integers or NaN; `none` is NaN. -/
abbrev JSNum := Option Int

/-- Value of a non-empty string of decimal digits. -/
def digitsToNat (l : List Char) : Nat := l.foldl (fun a c => a * 10 + (c.toNat - 48)) 0

/-- Model of `parseInt` with radix 10 on the strings this server meets:
skip leading whitespace, read an optional sign, then the longest run of
decimal digits; NaN (`none`) when no digits follow. -/
def jsParseInt (s : String) : Option Int :=
  let cs := s.data.dropWhile jsWhite
  let signed : Int × List Char :=
    match cs with
    | '-' :: r => (-1, r)
    | '+' :: r => (1, r)
    | r => (1, r)
  let ds := signed.2.takeWhile Char.isDigit
  if ds.isEmpty then none else some (signed.1 * (digitsToNat ds : Int))

/-- Model of `Math.ceil(a / b)` for integer arguments: the ceiling of the
rational quotient, written through floor division of the negation. -/
def mathCeilDiv (a b : Int) : Int := -(Int.fdiv (-a) b)

/-- Index resolution of `Array.prototype.slice`: NaN becomes 0, a negative
index counts from the end clamped at 0, a nonnegative one is clamped at the
length. -/
def jsSliceIdx (len : Nat) : JSNum → Nat
  | none => 0
  | some v => if v < 0 then ((len : Int) + v).toNat else min v.toNat len

/-- Model of `Array.prototype.slice(start, stop)`. -/
def jsSlice (l : List α) (start stop : JSNum) : List α :=
  (l.take (jsSliceIdx l.length stop)).drop (jsSliceIdx l.length start)

/-! ### Data model -/

/-- A stored goods record: one element of the JSON array in the db file.
Fields other than `id` mirror the object built by `makeGoodsFromData`;
`price` and `count` are `Option Int` because the raw payload values are
stored unconverted and may be absent in a hand-edited file, and `image` /
`category` are stored exactly as the validator left them. -/
structure GoodsRec where
  id : String
  title : String
  description : String
  price : Option Int
  discount : Int
  count : Option Int
  units : String
  image : Option String
  category : Option String
deriving DecidableEq

/-- The object returned by `pagination`. -/
structure PageResult where
  goods : List GoodsRec
  page : JSNum
  pages : Int
  totalCount : Nat
deriving DecidableEq

/-- Query parameters of `GET /api/goods` relevant to the list operation;
`none` is an absent parameter, `some ""` a parameter given with no value. -/
structure ListParams where
  search : Option String
  size : Option String
  page : Option String
deriving DecidableEq

/-- `getGoodsList` returns either the raw array (the `"all"` escape) or a
pagination envelope. -/
inductive ListResult where
  | plain (goods : List GoodsRec)
  | paged (result : PageResult)
deriving DecidableEq

/-- The items carried by either form of list result. -/
def resultItems : ListResult → List GoodsRec
  | ListResult.plain l => l
  | ListResult.paged r => r.goods

/-- JS truthiness of a possibly absent string: absent and `""` are falsy. -/
def truthy : Option String → Bool
  | none => false
  | some s => !(s == "")

/-! ### pagination and getGoodsList (src/index.js lines 292-306, 392-419) -/

/-- Translation of `pagination(data, page, cnt)`.  `cnt` arrives here already
through `parseInt` (folded into `sizeArg` below, and `parseInt(10) = 10` for
the default), so `parseInt(cnt) || 10` is the `|| 10` step on an
integer-or-NaN; `end = count * page` and the `page === 1 ? 0 : end - count`
start propagate NaN when `page` is NaN. -/
def pagination (data : List GoodsRec) (page : JSNum) (cnt : JSNum) : PageResult :=
  let count : Int := match cnt with | none => 10 | some c => if c = 0 then 10 else c
  let stop : JSNum := page.map (fun p => count * p)
  let start : JSNum := page.map (fun p => if p = 1 then 0 else count * p - count)
  { goods := jsSlice data start stop
    page := page
    pages := mathCeilDiv (data.length : Int) count
    totalCount := data.length }

/-- The `let size = params.size || 10` value fed to `pagination`, with the
`parseInt` that `pagination` applies to it: an absent or falsy-empty size
param yields the number 10, otherwise the param string is parsed. -/
def sizeArg : Option String → JSNum
  | none => some 10
  | some s => if s = "" then some 10 else jsParseInt s

/-- The page number reaching the final `pagination` call: `page` starts at 1
and is replaced by `parseInt(params.page)` only when the param is truthy. -/
def pageArg : Option String → JSNum
  | none => some 1
  | some p => if p = "" then some 1 else jsParseInt p

/-- The search predicate of `getGoodsList`: either of title and description,
lowercased, contains the (already trimmed and lowercased) search string. -/
def matchesSearch (searchLower : String) (g : GoodsRec) : Bool :=
  jsIncludes (jsToLower g.title) searchLower ||
    jsIncludes (jsToLower g.description) searchLower

/-- Translation of `getGoodsList(params)` for an object argument (HTTP
calls).  Internal calls pass the string `"all"` instead of an object and get
the raw collection back; in the model those call sites use the collection
directly.  For an object, only `params.size === 'all'` short-circuits. -/
def getGoodsList (params : ListParams) (db : List GoodsRec) : ListResult :=
  if params.size = some "all" then ListResult.plain db
  else
    let size := sizeArg params.size
    if truthy params.search then
      let searchLower := jsToLower (jsTrim (params.search.getD ""))
      ListResult.paged (pagination (db.filter (matchesSearch searchLower)) (some 1) size)
    else
      ListResult.paged (pagination db (pageArg params.page) size)

/-- A concrete valid record used to instantiate theorems on sample data. -/
def sampleGoods : GoodsRec :=
  { id := "1", title := "bored", description := "zzz", price := some 100,
    discount := 0, count := some 1, units := "pc", image := some "image/1.jpg",
    category := some "c" }

/-! ### Errors (class ApiError) -/

/-- One entry of the 422 error list. -/
structure FieldError where
  field : String
  message : String
deriving DecidableEq

/-- The `data` payload of an ApiError: `{message}` or `{errors: [...]}`. -/
inductive ErrData where
  | message (msg : String)
  | errors (list : List FieldError)
deriving DecidableEq

/-- Translation of `class ApiError`: a status code with a data payload. -/
structure ApiErr where
  statusCode : Nat
  data : ErrData
deriving DecidableEq

/-- The 404 error thrown by getGoods, updateGoods and deleteGoods. -/
def notFound : ApiErr := ⟨404, ErrData.message "Goods Not Found"⟩

/-! ### Validation (makeGoodsFromData, src/index.js lines 334-379) -/

/-- A raw request payload (or the merge of a stored record with a patch):
`none` is an absent (undefined) field.  String-valued fields are strings,
and the numeric fields carry the integers a JSON body supplies (`none`
playing undefined, whose `parseFloat` is NaN). -/
structure GoodsData where
  title : Option String
  description : Option String
  price : Option Int
  discount : Option Int
  count : Option Int
  units : Option String
  image : Option String
  category : Option String
deriving DecidableEq

/-- The object `makeGoodsFromData` builds and returns (no `id` yet). -/
structure GoodsOut where
  title : String
  description : String
  price : Option Int
  discount : Int
  count : Option Int
  units : String
  image : Option String
  category : Option String
deriving DecidableEq

/-- Translation of the inner `asString`: a falsy (absent or empty) value
becomes `""`, anything else is trimmed. -/
def asString (s : Option String) : String := jsTrim (s.getD "")

/-- Translation of the inner `isNumber` on integer-or-absent payload values:
`parseFloat(undefined)` is NaN, and a finite integer passes both checks. -/
def isNumber (n : Option Int) : Bool := n.isSome

def msgTitle : String := "Не указано название товара"

def msgDescription : String := "Не указано описание"

def msgPrice : String := "Не указана цена"

def msgCount : String := "Не указано кол-во"

def msgUnits : String := "Не указаны ед. измерения"

def msgCategory : String := "Не указана категория товара"

/-- Translation of `isImageBase64` (`/^data:image/.test(data)`); an absent
value coerces to the string "undefined", which does not match. -/
def isImageBase64 : Option String → Bool
  | some s => jsStartsWith s "data:image"
  | none => false

/-- Translation of `isImageURL` (`/^image\//.test(data)`). -/
def isImageURL : Option String → Bool
  | some s => jsStartsWith s "image/"
  | none => false

/-- Translation of the pure part of `dataURLtoFile`: the returned relative
path.  (The function also decodes the base64 payload and writes it to
`./image/{id}.{ext}` with `writeFile`, a side effect outside the model.)
`split(";")[0]` is the part before the first `;`, and `split("/")[1]` is
`undefined` when no `/` occurs, which the template literal renders as the
string "undefined". -/
def dataURLtoFile (base64 : String) (id : String) : String :=
  let format := (((jsSplit ';' base64).headD "" |> jsSplit '/').get? 1).getD "undefined"
  let ext := if format = "svg+xml" then "svg" else if format = "jpeg" then "jpg" else format
  "image/" ++ id ++ "." ++ ext

/-- Translation of the image branch at the end of `makeGoodsFromData` (the
`getD ""` is unreachable: the base64 branch is only taken when the image is
present). -/
def normalizeImage (img : Option String) (id : String) : Option String :=
  if isImageBase64 img then some (dataURLtoFile (img.getD "") id)
  else if isImageURL img then img
  else some "image/notimage.jpg"

/-- Translation of `makeGoodsFromData(data, id)`: build the normalized
object, push one error per failed check in source order, throw 422 with the
full list when any exist, otherwise rewrite the image field and return. -/
def makeGoodsFromData (data : GoodsData) (id : String) : Except ApiErr GoodsOut :=
  let goods : GoodsOut :=
    { title := asString data.title
      description := asString data.description
      price := data.price
      discount := data.discount.getD 0
      count := data.count
      units := asString data.units
      image := data.image
      category := data.category }
  let errors : List FieldError :=
    (if goods.title = "" then [⟨"title", msgTitle⟩] else []) ++
    (if goods.description = "" then [⟨"description", msgDescription⟩] else []) ++
    (if isNumber goods.price then [] else [⟨"price", msgPrice⟩]) ++
    (if isNumber goods.count then [] else [⟨"count", msgCount⟩]) ++
    (if goods.units = "" then [⟨"units", msgUnits⟩] else []) ++
    (if truthy goods.category then [] else [⟨"category", msgCategory⟩])
  if errors.isEmpty then
    Except.ok { goods with image := normalizeImage goods.image id }
  else
    Except.error ⟨422, ErrData.errors errors⟩

/-! ### CRUD operations (src/index.js lines 430-467).  Mutating operations
return the collection as persisted after the call together with the JS
return value or thrown error; a throw happens before `writeFileSync`, so the
error cases carry the unchanged collection. -/

/-- The spread `{...goods[itemIndex], ...data}` handed to re-validation on
update: payload fields override the stored record's fields. -/
def mergeData (g : GoodsRec) (d : GoodsData) : GoodsData :=
  { title := d.title <|> some g.title
    description := d.description <|> some g.description
    price := d.price <|> g.price
    discount := d.discount <|> some g.discount
    count := d.count <|> g.count
    units := d.units <|> some g.units
    image := d.image <|> g.image
    category := d.category <|> g.category }

/-- `Object.assign(goods[itemIndex], out)`: every field of the validator
output overwrites the record's, and `id` (absent from the output) stays. -/
def assignGoods (g : GoodsRec) (o : GoodsOut) : GoodsRec :=
  { id := g.id
    title := o.title
    description := o.description
    price := o.price
    discount := o.discount
    count := o.count
    units := o.units
    image := o.image
    category := o.category }

/-- The created record: validator output plus the generated id. -/
def recOfOut (newId : String) (o : GoodsOut) : GoodsRec :=
  { id := newId
    title := o.title
    description := o.description
    price := o.price
    discount := o.discount
    count := o.count
    units := o.units
    image := o.image
    category := o.category }

/-- `findIndex` together with the element found (the JS code reads
`goods[itemIndex]` right after). -/
def findWithIdx (p : GoodsRec → Bool) : List GoodsRec → Option (Nat × GoodsRec)
  | [] => none
  | g :: gs =>
    if p g then some (0, g)
    else
      match findWithIdx p gs with
      | none => none
      | some (i, x) => some (i + 1, x)

/-- Translation of `createGoods(data)`: the id is generated first (modeled
as the `newId` argument, for `Math.random` plus `Date.now`), validation may
throw before any write, then the new item is appended and persisted. -/
def createGoods (d : GoodsData) (newId : String) (db : List GoodsRec) :
    List GoodsRec × Except ApiErr GoodsRec :=
  match makeGoodsFromData d newId with
  | Except.error e => (db, Except.error e)
  | Except.ok o => (db ++ [recOfOut newId o], Except.ok (recOfOut newId o))

/-- Translation of `getGoods(itemId)`: find by id or throw 404. -/
def getGoods (itemId : String) (db : List GoodsRec) : Except ApiErr GoodsRec :=
  match db.find? (fun g => g.id == itemId) with
  | none => Except.error notFound
  | some g => Except.ok g

/-- Translation of `updateGoods(itemId, data)`: 404 when the id is absent
(before any validation), then re-validate the merged record (a 422 throw
precedes the write), then assign in place and persist. -/
def updateGoods (itemId : String) (d : GoodsData) (db : List GoodsRec) :
    List GoodsRec × Except ApiErr GoodsRec :=
  match findWithIdx (fun g => g.id == itemId) db with
  | none => (db, Except.error notFound)
  | some (i, g) =>
    match makeGoodsFromData (mergeData g d) itemId with
    | Except.error e => (db, Except.error e)
    | Except.ok o => (db.set i (assignGoods g o), Except.ok (assignGoods g o))

/-- Translation of `deleteGoods(itemId)`: 404 when absent, otherwise splice
the record out and persist; returns the empty object. -/
def deleteGoods (itemId : String) (db : List GoodsRec) :
    List GoodsRec × Except ApiErr Unit :=
  match findWithIdx (fun g => g.id == itemId) db with
  | none => (db, Except.error notFound)
  | some (i, _) => (db.eraseIdx i, Except.ok ())

/-- Invariant of a stored record that entered the collection through
validation (spec section 3): strings are trimmed and non-empty, numeric
fields are present, the image is a kept `image/...` path, and the category
is present and non-empty. -/
def NormalGoods (g : GoodsRec) : Prop :=
  jsTrim g.title = g.title ∧ g.title ≠ "" ∧
  jsTrim g.description = g.description ∧ g.description ≠ "" ∧
  g.price.isSome = true ∧ g.count.isSome = true ∧
  jsTrim g.units = g.units ∧ g.units ≠ "" ∧
  (∃ s, g.image = some s ∧ jsStartsWith s "image/" = true) ∧
  (∃ c, g.category = some c ∧ c ≠ "")

/-- A partial-update payload whose present fields survive validation:
present strings are non-empty after trimming and a present category is
non-empty.  (Present numeric fields always pass the integer model of
`isNumber`.) -/
def ValidPatch (d : GoodsData) : Prop :=
  (∀ t, d.title = some t → jsTrim t ≠ "") ∧
  (∀ t, d.description = some t → jsTrim t ≠ "") ∧
  (∀ u, d.units = some u → jsTrim u ≠ "") ∧
  (∀ c, d.category = some c → c ≠ "")

/-- Specification-side notion for claim C9: the pattern occurs in the hay as
a case-insensitive substring. -/
def containsCaseInsensitive (hay pat : String) : Prop :=
  (pat.data.map Char.toLower) <:+: (hay.data.map Char.toLower)

/-- A payload with every field absent (used to exercise validation
failure). -/
def emptyPayload : GoodsData :=
  { title := none, description := none, price := none, discount := none,
    count := none, units := none, image := none, category := none }

/-- A concrete partial-update payload naming title and price only. -/
def patchPayload : GoodsData :=
  { title := some "New", description := none, price := some 5, discount := none,
    count := none, units := none, image := none, category := none }

/-! ### Helper lemmas on the JS primitives -/

theorem jsSliceIdx_nonneg (len : Nat) (a : Int) (ha : 0 ≤ a) :
    jsSliceIdx len (some a) = min a.toNat len := by
  show (if a < 0 then ((len : Int) + a).toNat else min a.toNat len) = min a.toNat len
  rw [if_neg (by omega)]

theorem jsSlice_nonneg (l : List α) (a b : Int) (ha : 0 ≤ a) (hb : 0 ≤ b) :
    jsSlice l (some a) (some b) = (l.drop a.toNat).take (b.toNat - a.toNat) := by
  unfold jsSlice
  rw [jsSliceIdx_nonneg _ _ ha, jsSliceIdx_nonneg _ _ hb]
  have h1 : l.take (min b.toNat l.length) = l.take b.toNat := by
    apply List.take_eq_take.mpr
    omega
  rw [h1]
  by_cases hc : a.toNat ≤ l.length
  · have h2 : min a.toNat l.length = a.toNat := by omega
    rw [h2, List.drop_take]
  · have h2 : min a.toNat l.length = l.length := by omega
    have h3 : (l.take b.toNat).length ≤ l.length := by
      rw [List.length_take]; omega
    have h4 : l.drop a.toNat = [] := List.drop_eq_nil_of_le (by omega)
    rw [h2, List.drop_eq_nil_of_le h3, h4, List.take_nil]

theorem pagination_pos (data : List GoodsRec) (p : JSNum) (s : Int) (hs : s ≠ 0) :
    pagination data p (some s) =
      { goods := jsSlice data (p.map (fun q => if q = 1 then 0 else s * q - s))
          (p.map (fun q => s * q))
        page := p
        pages := mathCeilDiv data.length s
        totalCount := data.length } := by
  simp [pagination, hs]

theorem mathCeilDiv_cast (n : Nat) (s : Int) (hs : 1 ≤ s) :
    mathCeilDiv (n : Int) s = (((n + s.toNat - 1) / s.toNat : Nat) : Int) := by
  have hs0 : 0 < s := by omega
  have hcast : ((s.toNat : Int)) = s := Int.toNat_of_nonneg (by omega)
  have hs1 : 1 ≤ s.toNat := by omega
  have hqr := Nat.div_add_mod n s.toNat
  have hrlt : n % s.toNat < s.toNat := Nat.mod_lt _ (by omega)
  unfold mathCeilDiv
  rw [Int.fdiv_eq_ediv _ (by omega)]
  by_cases h0 : n % s.toNat = 0
  · have hn : n = s.toNat * (n / s.toNat) := by
      rw [h0, Nat.add_zero] at hqr; exact hqr.symm
    have hni : (n : Int) = s * (n / s.toNat : Nat) := by
      rw [← hcast]; exact_mod_cast hn
    have hdiv : (-(n : Int)) / s = -((n / s.toNat : Nat) : Int) ∧
        (-(n : Int)) % s = 0 :=
      (Int.ediv_emod_unique hs0).mpr ⟨by rw [hni]; ring, le_refl 0, hs0⟩
    have h3 : n + s.toNat - 1 = s.toNat * (n / s.toNat) + (s.toNat - 1) := by
      conv_lhs => rw [hn]
      exact Nat.add_sub_assoc hs1 _
    have hmd : (s.toNat * (n / s.toNat) + (s.toNat - 1)) / s.toNat
        = n / s.toNat + (s.toNat - 1) / s.toNat := Nat.mul_add_div (by omega) _ _
    have hlt : (s.toNat - 1) / s.toNat = 0 := Nat.div_eq_of_lt (by omega)
    rw [hdiv.1, h3, hmd, hlt, Nat.add_zero, Int.neg_neg]
  · obtain ⟨r1, hr1⟩ : ∃ r1, n % s.toNat = r1 + 1 := ⟨n % s.toNat - 1, by omega⟩
    have hr1s : r1 + 1 < s.toNat := by omega
    have hni : s * ((n / s.toNat : Nat) : Int) + (r1 + 1) = (n : Int) := by
      rw [← hcast]
      rw [hr1] at hqr
      exact_mod_cast hqr
    have hdiv : (-(n : Int)) / s = -(((n / s.toNat : Nat) : Int) + 1) ∧
        (-(n : Int)) % s = s - ((r1 : Int) + 1) :=
      (Int.ediv_emod_unique hs0).mpr
        ⟨by linear_combination -hni, by omega, by omega⟩
    have h3 : n + s.toNat - 1 = s.toNat * (n / s.toNat + 1) + r1 := by
      have hmul : s.toNat * (n / s.toNat + 1) = s.toNat * (n / s.toNat) + s.toNat := by
        ring
      rw [hmul]
      rw [hr1] at hqr
      generalize s.toNat * (n / s.toNat) = m at hqr ⊢
      omega
    have hmd : (s.toNat * (n / s.toNat + 1) + r1) / s.toNat
        = (n / s.toNat + 1) + r1 / s.toNat := Nat.mul_add_div (by omega) _ _
    have hlt : r1 / s.toNat = 0 := Nat.div_eq_of_lt (by omega)
    rw [hdiv.1, h3, hmd, hlt, Nat.add_zero]
    push_cast
    ring

theorem le_mathCeilDiv_mul (n : Nat) (s : Int) (hs : 0 < s) :
    (n : Int) ≤ mathCeilDiv (n : Int) s * s := by
  unfold mathCeilDiv
  rw [Int.fdiv_eq_ediv _ (by omega)]
  have h1 := Int.ediv_add_emod (-(n : Int)) s
  have h2 := Int.emod_nonneg (-(n : Int)) (by omega : s ≠ 0)
  have h3 : -((-(n : Int)) / s) * s = -(s * ((-(n : Int)) / s)) := by ring
  rw [h3]
  linarith

/-! ### Claim C1: the "all" escape of getGoodsList -/

/-- Claim C1, corrected.  `size="all"` does return the raw unpaginated
collection, but `page="all"` does not: the code only tests
`params.size === 'all'`, so `page="all"` falls through to
`parseInt("all") = NaN` and the result is a pagination envelope whose item
slice is empty (`slice(NaN, NaN)`). -/
theorem all_value_handling :
    (∀ (params : ListParams) (db : List GoodsRec), params.size = some "all" →
        getGoodsList params db = ListResult.plain db) ∧
    (∀ (params : ListParams) (db : List GoodsRec), params.size ≠ some "all" →
        truthy params.search = false → params.page = some "all" →
        ∃ r, getGoodsList params db = ListResult.paged r ∧ r.goods = []) := by
  constructor
  · intro params db h
    simp [getGoodsList, h]
  · intro params db h1 h2 h3
    have hg : getGoodsList params db =
        ListResult.paged (pagination db (pageArg params.page) (sizeArg params.size)) := by
      simp [getGoodsList, h1, h2]
    refine ⟨_, hg, ?_⟩
    have hp : pageArg params.page = none := by rw [h3]; rfl
    simp [pagination, hp, jsSlice, jsSliceIdx]

/-- Witness for `all_value_handling` at concrete inputs. -/
theorem all_value_handling_witness :
    getGoodsList ⟨none, some "all", none⟩ [sampleGoods] = ListResult.plain [sampleGoods] ∧
    ∃ r, getGoodsList ⟨none, none, some "all"⟩ [sampleGoods] = ListResult.paged r ∧
      r.goods = [] :=
  ⟨all_value_handling.1 _ _ rfl,
   all_value_handling.2 _ _ (by decide) rfl rfl⟩

/-- Counterexample to claim C1 as stated: with `page="all"` (size absent) the
list operation does not return the plain stored collection. -/
theorem page_all_not_plain_cex :
    getGoodsList ⟨none, none, some "all"⟩ [sampleGoods] ≠
      ListResult.plain [sampleGoods] := by decide

/-! ### Claim C2: pagination arithmetic -/

/-- Claim C2: for a positive integer page `p` and size `s`, the pagination
result is the slice of zero-based positions `(p-1)*s` up to `p*s - 1`
(clamped to the collection), reports the current page, `ceil(n/s)` pages and
`totalCount = n`. -/
theorem pagination_slice_spec (data : List GoodsRec) (p s : Int)
    (hp : 1 ≤ p) (hs : 1 ≤ s) :
    pagination data (some p) (some s) =
      { goods := (data.drop ((p - 1) * s).toNat).take s.toNat
        page := some p
        pages := (((data.length + s.toNat - 1) / s.toNat : Nat) : Int)
        totalCount := data.length } := by
  rw [pagination_pos _ _ _ (by omega)]
  have hstart : (if p = 1 then (0 : Int) else s * p - s) = (p - 1) * s := by
    by_cases h : p = 1
    · subst h; simp
    · rw [if_neg h]; ring
  have hA : 0 ≤ (p - 1) * s := mul_nonneg (by omega) (by omega)
  have hsl : jsSlice data (some ((p - 1) * s)) (some (s * p)) =
      (data.drop ((p - 1) * s).toNat).take s.toNat := by
    rw [jsSlice_nonneg _ _ _ hA (by positivity)]
    congr 1
    have h1 : s * p = (p - 1) * s + s := by ring
    rw [h1]
    generalize (p - 1) * s = A at hA ⊢
    omega
  simp only [Option.map_some']
  rw [hstart, hsl, mathCeilDiv_cast _ _ hs]

/-- Witness for `pagination_slice_spec`: 25 items, size 10, page 3 gives the
5-item slice at positions 20..24 and 3 pages; page 1 with the default size
10 gives the first ten items. -/
theorem pagination_slice_spec_witness :
    (1 : Int) ≤ 3 ∧ (1 : Int) ≤ 10 ∧
    pagination (List.replicate 25 sampleGoods) (some 3) (some 10) =
      { goods := ((List.replicate 25 sampleGoods).drop (((3 : Int) - 1) * 10).toNat).take
          (10 : Int).toNat
        page := some 3
        pages := ((((List.replicate 25 sampleGoods).length + (10 : Int).toNat - 1) /
          (10 : Int).toNat : Nat) : Int)
        totalCount := (List.replicate 25 sampleGoods).length } ∧
    pagination (List.replicate 25 sampleGoods) (some 1) (sizeArg none) =
      { goods := ((List.replicate 25 sampleGoods).drop (((1 : Int) - 1) * 10).toNat).take
          (10 : Int).toNat
        page := some 1
        pages := ((((List.replicate 25 sampleGoods).length + (10 : Int).toNat - 1) /
          (10 : Int).toNat : Nat) : Int)
        totalCount := (List.replicate 25 sampleGoods).length } :=
  ⟨by norm_num, by norm_num,
   pagination_slice_spec _ 3 10 (by norm_num) (by norm_num),
   pagination_slice_spec _ 1 10 (by norm_num) (by norm_num)⟩

/-! ### Claim C3: out-of-range pages -/

/-- Counterexample to claim C3 as stated: a negative page is fed to
`Array.prototype.slice`, whose negative indices count from the end of the
array, so page `-1` of 25 items with size 10 returns a non-empty slice
(items 5..14) instead of an empty one. -/
theorem negative_page_nonempty_cex :
    resultItems (getGoodsList ⟨none, none, some "-1"⟩ (List.replicate 25 sampleGoods)) ≠
      [] := by decide

/-- Claim C3, corrected: pages past the last page and page 0 do return an
empty slice (and `pagination` is a total function, so no error is raised),
but negative pages go through the negative-index semantics of `slice` and
can return a non-empty slice. -/
theorem out_of_range_page_empty (data : List GoodsRec) (p s : Int) (hs : 1 ≤ s)
    (hp : p = 0 ∨ (1 ≤ p ∧ mathCeilDiv data.length s < p)) :
    (pagination data (some p) (some s)).goods = [] := by
  rw [pagination_pos _ _ _ (by omega)]
  rcases hp with hp | ⟨hp1, hp2⟩
  · subst hp
    simp [jsSlice, jsSliceIdx]
  · have hstart : (if p = 1 then (0 : Int) else s * p - s) = (p - 1) * s := by
      by_cases h : p = 1
      · subst h; simp
      · rw [if_neg h]; ring
    have h4 := le_mathCeilDiv_mul data.length s (by omega)
    have h6 : mathCeilDiv data.length s * s ≤ (p - 1) * s :=
      mul_le_mul_of_nonneg_right (by omega) (by omega)
    have hlen : (data.length : Int) ≤ (p - 1) * s := le_trans h4 h6
    have hA : 0 ≤ (p - 1) * s := mul_nonneg (by omega) (by omega)
    simp only [Option.map_some']
    rw [hstart]
    unfold jsSlice
    rw [jsSliceIdx_nonneg _ _ hA]
    have hmin : min ((p - 1) * s).toNat data.length = data.length := by
      generalize (p - 1) * s = A at hA hlen
      omega
    rw [hmin]
    refine List.drop_eq_nil_of_le ?_
    rw [List.length_take]
    omega

/-- Witness for `out_of_range_page_empty`: page 4 (past the 3 pages of 25
items at size 10) and page 0 both give an empty slice. -/
theorem out_of_range_page_empty_witness :
    (1 : Int) ≤ 10 ∧
    (pagination (List.replicate 25 sampleGoods) (some 4) (some 10)).goods = [] ∧
    (pagination (List.replicate 25 sampleGoods) (some 0) (some 10)).goods = [] :=
  ⟨by norm_num,
   out_of_range_page_empty _ 4 10 (by norm_num) (Or.inr ⟨by norm_num, by decide⟩),
   out_of_range_page_empty _ 0 10 (by norm_num) (Or.inl rfl)⟩

/-! ### Helper lemmas on split and startsWith -/

theorem isPrefixCh_append (a b : List Char) : isPrefixCh a (a ++ b) = true := by
  induction a with
  | nil => rfl
  | cons x xs ih => simp [isPrefixCh, ih]

theorem splitCh_not_mem (c : Char) (l : List Char) (h : c ∉ l) :
    splitCh c l = [l] := by
  induction l with
  | nil => rfl
  | cons a as ih =>
    simp only [List.mem_cons, not_or] at h
    have ha : ¬ a = c := fun hh => h.1 hh.symm
    simp [splitCh, if_neg ha, ih h.2]

theorem splitCh_append (c : Char) (l1 l2 : List Char) (h : c ∉ l1) :
    splitCh c (l1 ++ c :: l2) = l1 :: splitCh c l2 := by
  induction l1 with
  | nil => simp [splitCh]
  | cons a as ih =>
    simp only [List.mem_cons, not_or] at h
    have ha : ¬ a = c := fun hh => h.1 hh.symm
    simp [splitCh, if_neg ha, ih h.2]

theorem dataURL_data (fmt rest : String) :
    ("data:image/" ++ fmt ++ ";base64," ++ rest).data
      = "data:image".data ++ ('/' :: (fmt.data ++ ';' :: ("base64,".data ++ rest.data))) := by
  show "data:image/".data ++ fmt.data ++ ";base64,".data ++ rest.data = _
  rw [(rfl : "data:image/".data = "data:image".data ++ ['/']),
    (rfl : ";base64,".data = [';'] ++ "base64,".data)]
  simp [List.append_assoc]

theorem dataURLtoFile_shape (fmt rest id : String)
    (hs : ';' ∉ fmt.data) (hsl : '/' ∉ fmt.data) :
    dataURLtoFile ("data:image/" ++ fmt ++ ";base64," ++ rest) id =
      "image/" ++ id ++ "." ++
        (if fmt = "svg+xml" then "svg" else if fmt = "jpeg" then "jpg" else fmt) := by
  have hnotin : ';' ∉ ("data:image".data ++ '/' :: fmt.data) := by
    intro hmem
    rcases List.mem_append.mp hmem with h | h
    · revert h; decide
    · rcases List.mem_cons.mp h with h | h
      · revert h; decide
      · exact hs h
  have hd1 : ("data:image/" ++ fmt ++ ";base64," ++ rest).data
      = ("data:image".data ++ '/' :: fmt.data) ++ ';' :: ("base64,".data ++ rest.data) := by
    rw [dataURL_data]
    simp [List.append_assoc]
  have h1 : jsSplit ';' ("data:image/" ++ fmt ++ ";base64," ++ rest)
      = String.mk ("data:image".data ++ '/' :: fmt.data) ::
          (splitCh ';' ("base64,".data ++ rest.data)).map String.mk := by
    unfold jsSplit
    rw [hd1, splitCh_append _ _ _ hnotin]
    simp
  have h2 : jsSplit '/' (String.mk ("data:image".data ++ '/' :: fmt.data))
      = ["data:image", String.mk fmt.data] := by
    unfold jsSplit
    show (splitCh '/' ("data:image".data ++ '/' :: fmt.data)).map String.mk = _
    rw [splitCh_append _ _ _ (by decide), splitCh_not_mem _ _ hsl]
    rfl
  unfold dataURLtoFile
  rw [h1]
  simp only [List.headD_cons]
  rw [h2]
  rfl

/-! ### Claim C4: validation accumulates the full error list -/

/-- Claim C4: validation pushes one `{field, message}` entry per failed
check in source order and throws a single 422 carrying the whole list; a
payload missing title and price whose other required fields are valid fails
with exactly the title entry followed by the price entry and nothing else. -/
theorem validation_collects_all_errors (d : GoodsData) (id : String)
    (ht : asString d.title = "") (hd : asString d.description ≠ "")
    (hpz : isNumber d.price = false) (hc : isNumber d.count = true)
    (hu : asString d.units ≠ "") (hcat : truthy d.category = true) :
    makeGoodsFromData d id =
      Except.error ⟨422, ErrData.errors [⟨"title", msgTitle⟩, ⟨"price", msgPrice⟩]⟩ := by
  unfold makeGoodsFromData
  simp [ht, hd, hpz, hc, hu, hcat]

/-- Witness for `validation_collects_all_errors` on a concrete payload. -/
theorem validation_collects_all_errors_witness :
    asString (none : Option String) = "" ∧ isNumber (none : Option Int) = false ∧
    makeGoodsFromData
      { title := none, description := some "desc", price := none, discount := none,
        count := some 2, units := some "kg", image := none, category := some "cat" } "9" =
      Except.error ⟨422, ErrData.errors [⟨"title", msgTitle⟩, ⟨"price", msgPrice⟩]⟩ :=
  ⟨rfl, rfl,
   validation_collects_all_errors _ "9" rfl (by decide) rfl rfl (by decide) rfl⟩

/-! ### Claim C6: image normalization -/

/-- Claim C6: on a payload passing validation, a base64 data URL image is
replaced by the relative path `image/{id}.{ext}` with the extension derived
from the MIME subtype (`jpeg` to `jpg`, `svg+xml` to `svg`, anything else
unchanged); an image already matching the internal `image/` pattern is kept;
anything else becomes the fixed placeholder path. -/
theorem image_normalization_spec (d : GoodsData) (id : String)
    (h1 : asString d.title ≠ "") (h2 : asString d.description ≠ "")
    (h3 : isNumber d.price = true) (h4 : isNumber d.count = true)
    (h5 : asString d.units ≠ "") (h6 : truthy d.category = true) :
    (∀ fmt rest, d.image = some ("data:image/" ++ fmt ++ ";base64," ++ rest) →
        ';' ∉ fmt.data → '/' ∉ fmt.data →
        makeGoodsFromData d id = Except.ok
          { title := asString d.title, description := asString d.description,
            price := d.price, discount := d.discount.getD 0, count := d.count,
            units := asString d.units,
            image := some ("image/" ++ id ++ "." ++
              (if fmt = "svg+xml" then "svg" else if fmt = "jpeg" then "jpg" else fmt)),
            category := d.category }) ∧
    (isImageBase64 d.image = false → isImageURL d.image = true →
        makeGoodsFromData d id = Except.ok
          { title := asString d.title, description := asString d.description,
            price := d.price, discount := d.discount.getD 0, count := d.count,
            units := asString d.units, image := d.image,
            category := d.category }) ∧
    (isImageBase64 d.image = false → isImageURL d.image = false →
        makeGoodsFromData d id = Except.ok
          { title := asString d.title, description := asString d.description,
            price := d.price, discount := d.discount.getD 0, count := d.count,
            units := asString d.units, image := some "image/notimage.jpg",
            category := d.category }) := by
  have hok : makeGoodsFromData d id = Except.ok
      { title := asString d.title, description := asString d.description,
        price := d.price, discount := d.discount.getD 0, count := d.count,
        units := asString d.units, image := normalizeImage d.image id,
        category := d.category } := by
    unfold makeGoodsFromData
    simp [h1, h2, h3, h4, h5, h6]
  refine ⟨?_, ?_, ?_⟩
  · intro fmt rest him hsemi hslash
    have hbase : isImageBase64 d.image = true := by
      rw [him]
      show jsStartsWith _ "data:image" = true
      unfold jsStartsWith
      rw [dataURL_data]
      exact isPrefixCh_append _ _
    have hni : normalizeImage d.image id =
        some ("image/" ++ id ++ "." ++
          (if fmt = "svg+xml" then "svg" else if fmt = "jpeg" then "jpg" else fmt)) := by
      unfold normalizeImage
      rw [hbase, if_pos rfl, him]
      simp only [Option.getD_some]
      rw [dataURLtoFile_shape _ _ _ hsemi hslash]
    rw [hok, hni]
  · intro hb hu2
    have hni : normalizeImage d.image id = d.image := by
      unfold normalizeImage
      rw [hb, hu2]
      simp
    rw [hok, hni]
  · intro hb hu2
    have hni : normalizeImage d.image id = some "image/notimage.jpg" := by
      unfold normalizeImage
      rw [hb, hu2]
      simp
    rw [hok, hni]

/-- Witness for `image_normalization_spec`: a jpeg data URL becomes
`image/7.jpg`, an existing `image/` path is kept, anything else becomes the
placeholder. -/
theorem image_normalization_spec_witness :
    makeGoodsFromData
      { title := some "shirt", description := some "cotton", price := some 10,
        discount := none, count := some 1, units := some "pc",
        image := some ("data:image/" ++ "jpeg" ++ ";base64," ++ "AAAA"),
        category := some "tops" } "7" =
      Except.ok
        { title := "shirt", description := "cotton", price := some 10,
          discount := 0, count := some 1, units := "pc",
          image := some "image/7.jpg", category := some "tops" } ∧
    makeGoodsFromData
      { title := some "shirt", description := some "cotton", price := some 10,
        discount := none, count := some 1, units := some "pc",
        image := some "image/old.png", category := some "tops" } "7" =
      Except.ok
        { title := "shirt", description := "cotton", price := some 10,
          discount := 0, count := some 1, units := "pc",
          image := some "image/old.png", category := some "tops" } ∧
    makeGoodsFromData
      { title := some "shirt", description := some "cotton", price := some 10,
        discount := none, count := some 1, units := some "pc",
        image := some "http://x/y.png", category := some "tops" } "7" =
      Except.ok
        { title := "shirt", description := "cotton", price := some 10,
          discount := 0, count := some 1, units := "pc",
          image := some "image/notimage.jpg", category := some "tops" } := by
  refine ⟨?_, ?_, ?_⟩
  · have h := (image_normalization_spec
        { title := some "shirt", description := some "cotton", price := some 10,
          discount := none, count := some 1, units := some "pc",
          image := some ("data:image/" ++ "jpeg" ++ ";base64," ++ "AAAA"),
          category := some "tops" } "7"
        (by decide) (by decide) rfl rfl (by decide) rfl).1 "jpeg" "AAAA" rfl
        (by decide) (by decide)
    exact h
  · have h := (image_normalization_spec
        { title := some "shirt", description := some "cotton", price := some 10,
          discount := none, count := some 1, units := some "pc",
          image := some "image/old.png", category := some "tops" } "7"
        (by decide) (by decide) rfl rfl (by decide) rfl).2.1 (by decide) (by decide)
    exact h
  · have h := (image_normalization_spec
        { title := some "shirt", description := some "cotton", price := some 10,
          discount := none, count := some 1, units := some "pc",
          image := some "http://x/y.png", category := some "tops" } "7"
        (by decide) (by decide) rfl rfl (by decide) rfl).2.2 (by decide) (by decide)
    exact h

/-! ### Helper lemmas on findWithIdx and substring search -/

theorem findWithIdx_cons_pos (p : GoodsRec → Bool) (a : GoodsRec) (l : List GoodsRec)
    (h : p a = true) : findWithIdx p (a :: l) = some (0, a) := by
  simp [findWithIdx, h]

theorem findWithIdx_cons_neg (p : GoodsRec → Bool) (a : GoodsRec) (l : List GoodsRec)
    (h : p a = false) :
    findWithIdx p (a :: l) = (findWithIdx p l).map (fun pr => (pr.1 + 1, pr.2)) := by
  cases hrec : findWithIdx p l <;> simp [findWithIdx, h, hrec]

theorem findWithIdx_eq_none (p : GoodsRec → Bool) (l : List GoodsRec)
    (h : ∀ g ∈ l, p g = false) : findWithIdx p l = none := by
  induction l with
  | nil => rfl
  | cons a as ih =>
    rw [findWithIdx_cons_neg _ _ _ (h a (List.mem_cons_self _ _)),
      ih (fun g hg => h g (List.mem_cons_of_mem _ hg))]
    rfl

theorem findWithIdx_found (p : GoodsRec → Bool) (l : List GoodsRec) (i : Nat)
    (g : GoodsRec) (h : findWithIdx p l = some (i, g)) : p g = true := by
  induction l generalizing i with
  | nil => simp [findWithIdx] at h
  | cons a as ih =>
    by_cases hpa : p a
    · rw [findWithIdx_cons_pos _ _ _ hpa] at h
      obtain ⟨h1, h2⟩ := Prod.mk.injEq .. ▸ (Option.some.injEq .. ▸ h)
      exact h2 ▸ hpa
    · rw [findWithIdx_cons_neg _ _ _ (by simpa using hpa)] at h
      cases hrec : findWithIdx p as with
      | none => rw [hrec] at h; simp at h
      | some pr =>
        rw [hrec] at h
        simp only [Option.map_some', Option.some.injEq] at h
        have hg : g = pr.2 := (congrArg Prod.snd h).symm
        exact hg ▸ ih pr.1 (by rw [hrec]; exact congrArg some (Prod.ext rfl hg.symm))

theorem find?_set_of_findWithIdx (p : GoodsRec → Bool) (db : List GoodsRec)
    (i : Nat) (g r : GoodsRec)
    (h : findWithIdx p db = some (i, g)) (hr : p r = true) :
    (db.set i r).find? p = some r := by
  induction db generalizing i with
  | nil => simp [findWithIdx] at h
  | cons a as ih =>
    by_cases hpa : p a
    · rw [findWithIdx_cons_pos _ _ _ hpa] at h
      have hi : i = 0 := (congrArg Prod.fst (Option.some.injEq .. ▸ h)).symm
      subst hi
      simp [List.find?, hr]
    · rw [findWithIdx_cons_neg _ _ _ (by simpa using hpa)] at h
      cases hrec : findWithIdx p as with
      | none => rw [hrec] at h; simp at h
      | some pr =>
        rw [hrec] at h
        simp only [Option.map_some', Option.some.injEq] at h
        have hi : i = pr.1 + 1 := (congrArg Prod.fst h).symm
        have hg : g = pr.2 := (congrArg Prod.snd h).symm
        subst hi
        rw [List.set_cons_succ, List.find?_cons_of_neg _ (by simpa using hpa)]
        exact ih pr.1 (by rw [hrec]; exact congrArg some (Prod.ext rfl hg.symm))

theorem isPrefixCh_iff (a b : List Char) : isPrefixCh a b = true ↔ a <+: b := by
  induction a generalizing b with
  | nil => simp [isPrefixCh]
  | cons x xs ih =>
    cases b with
    | nil => simp [isPrefixCh]
    | cons y ys => simp [isPrefixCh, ih, List.cons_prefix_cons]

theorem includesCh_iff (nee hay : List Char) : includesCh nee hay = true ↔ nee <:+: hay := by
  induction hay with
  | nil => simp [includesCh, List.isEmpty_iff]
  | cons b bs ih => simp [includesCh, isPrefixCh_iff, ih, List.infix_cons_iff]

theorem mem_of_mem_jsSlice {g : α} (l : List α) (a b : JSNum)
    (h : g ∈ jsSlice l a b) : g ∈ l :=
  List.mem_of_mem_take (List.mem_of_mem_drop h)

/-! ### Claim C8: operations on an absent id -/

/-- Claim C8: when no stored record carries the requested id, PATCH fails
with the 404 "Goods Not Found" error before any validation of the payload
(the payload is arbitrary here, valid or not), and DELETE and GET fail with
the same error; the collection is untouched. -/
theorem absent_id_404 (db : List GoodsRec) (itemId : String) (d : GoodsData)
    (h : ∀ g ∈ db, g.id ≠ itemId) :
    updateGoods itemId d db = (db, Except.error notFound) ∧
    deleteGoods itemId db = (db, Except.error notFound) ∧
    getGoods itemId db = Except.error notFound := by
  have hfind : findWithIdx (fun g => g.id == itemId) db = none :=
    findWithIdx_eq_none _ _ (fun g hg => by simpa using h g hg)
  have hfind2 : db.find? (fun g => g.id == itemId) = none := by
    rw [List.find?_eq_none]
    intro x hx
    simpa using h x hx
  exact ⟨by simp [updateGoods, hfind], by simp [deleteGoods, hfind],
    by simp [getGoods, hfind2]⟩

/-- Witness for `absent_id_404` on a concrete collection and id. -/
theorem absent_id_404_witness :
    (∀ g ∈ [sampleGoods], g.id ≠ "zzz") ∧
    updateGoods "zzz" emptyPayload [sampleGoods] = ([sampleGoods], Except.error notFound) ∧
    deleteGoods "zzz" [sampleGoods] = ([sampleGoods], Except.error notFound) ∧
    getGoods "zzz" [sampleGoods] = Except.error notFound := by
  have h := absent_id_404 [sampleGoods] "zzz" emptyPayload (by decide)
  exact ⟨by decide, h.1, h.2.1, h.2.2⟩

/-! ### Claim C10: failed mutations do not write -/

/-- Claim C10: whenever createGoods, updateGoods or deleteGoods ends in an
error (422 validation failure or 404 not-found), the persisted collection
after the call is exactly the collection before it: every throw happens
before the `writeFileSync`. -/
theorem failed_mutation_preserves_db (db : List GoodsRec) (d : GoodsData)
    (newId itemId : String) :
    (∀ e, (createGoods d newId db).2 = Except.error e → (createGoods d newId db).1 = db) ∧
    (∀ e, (updateGoods itemId d db).2 = Except.error e → (updateGoods itemId d db).1 = db) ∧
    (∀ e, (deleteGoods itemId db).2 = Except.error e → (deleteGoods itemId db).1 = db) := by
  refine ⟨?_, ?_, ?_⟩
  · intro e he
    unfold createGoods at he ⊢
    cases hmk : makeGoodsFromData d newId with
    | error e2 => rfl
    | ok o => rw [hmk] at he; simp at he
  · intro e he
    unfold updateGoods at he ⊢
    cases hf : findWithIdx (fun g => g.id == itemId) db with
    | none => rfl
    | some pr =>
      obtain ⟨i0, g0⟩ := pr
      rw [hf] at he
      cases hmk : makeGoodsFromData (mergeData g0 d) itemId with
      | error e2 => simp [hmk]
      | ok o => simp [hmk] at he
  · intro e he
    unfold deleteGoods at he ⊢
    cases hf : findWithIdx (fun g => g.id == itemId) db with
    | none => rfl
    | some pr =>
      obtain ⟨i0, g0⟩ := pr
      rw [hf] at he
      simp at he

/-- Witness for `failed_mutation_preserves_db`: a 422-failing create and
404-failing update and delete leave the concrete collection unchanged. -/
theorem failed_mutation_preserves_db_witness :
    (createGoods emptyPayload "1" [sampleGoods]).2 =
      Except.error ⟨422, ErrData.errors
        [⟨"title", msgTitle⟩, ⟨"description", msgDescription⟩, ⟨"price", msgPrice⟩,
         ⟨"count", msgCount⟩, ⟨"units", msgUnits⟩, ⟨"category", msgCategory⟩]⟩ ∧
    (createGoods emptyPayload "1" [sampleGoods]).1 = [sampleGoods] ∧
    (updateGoods "zzz" emptyPayload [sampleGoods]).2 = Except.error notFound ∧
    (updateGoods "zzz" emptyPayload [sampleGoods]).1 = [sampleGoods] ∧
    (deleteGoods "zzz" [sampleGoods]).2 = Except.error notFound ∧
    (deleteGoods "zzz" [sampleGoods]).1 = [sampleGoods] := by
  have h := failed_mutation_preserves_db [sampleGoods] emptyPayload "1" "zzz"
  exact ⟨rfl, h.1 _ rfl, rfl, h.2.1 _ rfl, rfl, h.2.2 _ rfl⟩

/-! ### Claim C9: search -/

/-- Counterexample to claim C9 as stated: the search string is trimmed
before matching, so the untrimmed search " red" surfaces an item whose title
"bored" does not contain " red" as a case-insensitive substring. -/
theorem search_untrimmed_cex :
    sampleGoods ∈ resultItems (getGoodsList ⟨some " red", none, none⟩ [sampleGoods]) ∧
    ¬ containsCaseInsensitive sampleGoods.title " red" ∧
    ¬ containsCaseInsensitive sampleGoods.description " red" := by
  refine ⟨by decide, ?_, ?_⟩
  · intro hcon
    have h := (includesCh_iff _ _).mpr hcon
    revert h
    decide
  · intro hcon
    have h := (includesCh_iff _ _).mpr hcon
    revert h
    decide

/-- Claim C9, corrected: every item in the search result contains the
trimmed search string as a case-insensitive substring in its title or its
description (the code trims the search parameter before matching, so
surrounding whitespace in the parameter is ignored). -/
theorem search_filters_results (params : ListParams) (db : List GoodsRec)
    (s : String) (hall : params.size ≠ some "all")
    (hs : params.search = some s) (hne : s ≠ "") :
    ∀ g ∈ resultItems (getGoodsList params db),
      containsCaseInsensitive g.title (jsTrim s) ∨
      containsCaseInsensitive g.description (jsTrim s) := by
  intro g hm
  have htrs : truthy (some s) = true := by
    simp [truthy, hne]
  have hres : getGoodsList params db = ListResult.paged (pagination
      (db.filter (matchesSearch (jsToLower (jsTrim s)))) (some 1) (sizeArg params.size)) := by
    simp [getGoodsList, hall, hs, htrs]
  rw [hres] at hm
  have hsub : g ∈ db.filter (matchesSearch (jsToLower (jsTrim s))) :=
    mem_of_mem_jsSlice _ _ _ hm
  obtain ⟨hdb, hmatch⟩ := List.mem_filter.mp hsub
  unfold matchesSearch at hmatch
  rw [Bool.or_eq_true] at hmatch
  rcases hmatch with h | h
  · exact Or.inl ((includesCh_iff _ _).mp h)
  · exact Or.inr ((includesCh_iff _ _).mp h)

/-- Witness for `search_filters_results`: searching "ore" over the sample
collection returns the item and its title contains "ore". -/
theorem search_filters_results_witness :
    (some "ore" : Option String) ≠ some "all" ∧ "ore" ≠ "" ∧
    sampleGoods ∈ resultItems (getGoodsList ⟨some "ore", none, none⟩ [sampleGoods]) ∧
    (containsCaseInsensitive sampleGoods.title (jsTrim "ore") ∨
      containsCaseInsensitive sampleGoods.description (jsTrim "ore")) := by
  refine ⟨by decide, by decide, by decide, ?_⟩
  exact search_filters_results ⟨some "ore", none, none⟩ [sampleGoods] "ore"
    (by decide) rfl (by decide) sampleGoods (by decide)

/-! ### Claim C7: partial update frame property -/

theorem image_url_not_base64 (s : String) (h : jsStartsWith s "image/" = true) :
    jsStartsWith s "data:image" = false := by
  unfold jsStartsWith at h ⊢
  rw [(show "image/".data = 'i' :: "mage/".data from rfl)] at h
  rw [(show "data:image".data = 'd' :: "ata:image".data from rfl)]
  cases hs : s.data with
  | nil => rw [hs] at h; simp [isPrefixCh] at h
  | cons a as =>
    rw [hs] at h
    simp only [isPrefixCh, Bool.and_eq_true, beq_iff_eq] at h
    obtain ⟨ha, _⟩ := h
    subst ha
    show (('d' == 'i') && isPrefixCh "ata:image".data as) = false
    rw [(show ('d' == 'i') = false from rfl), Bool.false_and]

/-- Claim C7, corrected: patching a stored (validated) record with a valid
partial payload updates exactly the named fields — each carrying the new
value as normalized by the validator (strings trimmed, a base64 image
replaced by the generated path) — leaves every unnamed field and the `id`
unchanged, persists the collection with only that slot replaced, and a
subsequent fetch returns the updated record. -/
theorem update_frame_spec (db : List GoodsRec) (itemId : String) (d : GoodsData)
    (i : Nat) (g : GoodsRec)
    (hfind : findWithIdx (fun x => x.id == itemId) db = some (i, g))
    (hg : NormalGoods g) (hd : ValidPatch d) :
    ∃ r, updateGoods itemId d db = (db.set i r, Except.ok r) ∧
      getGoods itemId (db.set i r) = Except.ok r ∧
      r.id = g.id ∧
      r.title = (match d.title with | some t => jsTrim t | none => g.title) ∧
      r.description =
        (match d.description with | some t => jsTrim t | none => g.description) ∧
      r.price = (match d.price with | some p => some p | none => g.price) ∧
      r.discount = (match d.discount with | some x => x | none => g.discount) ∧
      r.count = (match d.count with | some c => some c | none => g.count) ∧
      r.units = (match d.units with | some u => jsTrim u | none => g.units) ∧
      r.image = (match d.image with
        | some s2 => normalizeImage (some s2) itemId
        | none => g.image) ∧
      r.category = (match d.category with | some c => some c | none => g.category) := by
  obtain ⟨hgt1, hgt2, hgd1, hgd2, hgp, hgc, hgu1, hgu2, ⟨simg, hsimg, hsurl⟩,
    ⟨cat, hcat, hcatne⟩⟩ := hg
  obtain ⟨hdt, hdd, hdu, hdc⟩ := hd
  have ct : asString (mergeData g d).title ≠ "" := by
    unfold mergeData asString
    cases hx : d.title with
    | none =>
      simp only [Option.none_orElse, Option.getD_some]
      rw [hgt1]
      exact hgt2
    | some t => simpa using hdt t hx
  have cd : asString (mergeData g d).description ≠ "" := by
    unfold mergeData asString
    cases hx : d.description with
    | none =>
      simp only [Option.none_orElse, Option.getD_some]
      rw [hgd1]
      exact hgd2
    | some t => simpa using hdd t hx
  have cp : isNumber (mergeData g d).price = true := by
    unfold mergeData isNumber
    cases hx : d.price with
    | none => simpa using hgp
    | some p => simp
  have cc : isNumber (mergeData g d).count = true := by
    unfold mergeData isNumber
    cases hx : d.count with
    | none => simpa using hgc
    | some c => simp
  have cu : asString (mergeData g d).units ≠ "" := by
    unfold mergeData asString
    cases hx : d.units with
    | none =>
      simp only [Option.none_orElse, Option.getD_some]
      rw [hgu1]
      exact hgu2
    | some u => simpa using hdu u hx
  have ccat : truthy (mergeData g d).category = true := by
    unfold mergeData
    cases hx : d.category with
    | none => simp [hcat, truthy, hcatne]
    | some c => simp [truthy, hdc c hx]
  have hmk : makeGoodsFromData (mergeData g d) itemId = Except.ok
      { title := asString (mergeData g d).title
        description := asString (mergeData g d).description
        price := (mergeData g d).price
        discount := (mergeData g d).discount.getD 0
        count := (mergeData g d).count
        units := asString (mergeData g d).units
        image := normalizeImage (mergeData g d).image itemId
        category := (mergeData g d).category } := by
    unfold makeGoodsFromData
    simp [ct, cd, cp, cc, cu, ccat]
  refine ⟨assignGoods g
    { title := asString (mergeData g d).title
      description := asString (mergeData g d).description
      price := (mergeData g d).price
      discount := (mergeData g d).discount.getD 0
      count := (mergeData g d).count
      units := asString (mergeData g d).units
      image := normalizeImage (mergeData g d).image itemId
      category := (mergeData g d).category }, ?_, ?_, rfl, ?_, ?_, ?_, ?_, ?_, ?_, ?_, ?_⟩
  · unfold updateGoods
    rw [hfind]
    simp [hmk]
  · have hpr : (fun x => x.id == itemId) (assignGoods g
        { title := asString (mergeData g d).title
          description := asString (mergeData g d).description
          price := (mergeData g d).price
          discount := (mergeData g d).discount.getD 0
          count := (mergeData g d).count
          units := asString (mergeData g d).units
          image := normalizeImage (mergeData g d).image itemId
          category := (mergeData g d).category }) = true := by
      simpa [assignGoods] using findWithIdx_found _ _ _ _ hfind
    unfold getGoods
    rw [find?_set_of_findWithIdx _ _ _ _ _ hfind hpr]
  · show asString (mergeData g d).title = _
    unfold mergeData asString
    cases hx : d.title with
    | none => simpa using hgt1
    | some t => simp
  · show asString (mergeData g d).description = _
    unfold mergeData asString
    cases hx : d.description with
    | none => simpa using hgd1
    | some t => simp
  · show (mergeData g d).price = _
    unfold mergeData
    cases hx : d.price with
    | none => simp
    | some p => simp
  · show (mergeData g d).discount.getD 0 = _
    unfold mergeData
    cases hx : d.discount with
    | none => simp
    | some x => simp
  · show (mergeData g d).count = _
    unfold mergeData
    cases hx : d.count with
    | none => simp
    | some c => simp
  · show asString (mergeData g d).units = _
    unfold mergeData asString
    cases hx : d.units with
    | none => simpa using hgu1
    | some u => simp
  · show normalizeImage (mergeData g d).image itemId = _
    unfold mergeData
    cases hx : d.image with
    | none =>
      simp only [Option.none_orElse]
      rw [hsimg]
      unfold normalizeImage
      rw [(show isImageBase64 (some simg) = false from image_url_not_base64 _ hsurl),
        (show isImageURL (some simg) = true from hsurl)]
      simp
    | some s2 => simp
  · show (mergeData g d).category = _
    unfold mergeData
    cases hx : d.category with
    | none => simp
    | some c => simp

/-- Witness for `update_frame_spec`: patch title and price of the sampled
record; the title is stored trimmed, price updated, everything else kept. -/
theorem update_frame_spec_witness :
    ∃ r, updateGoods "1" patchPayload [sampleGoods] = ([sampleGoods].set 0 r, Except.ok r) ∧
      getGoods "1" ([sampleGoods].set 0 r) = Except.ok r ∧
      r.id = sampleGoods.id ∧
      r.title = (match patchPayload.title with
        | some t => jsTrim t | none => sampleGoods.title) ∧
      r.description = (match patchPayload.description with
        | some t => jsTrim t | none => sampleGoods.description) ∧
      r.price = (match patchPayload.price with
        | some p => some p | none => sampleGoods.price) ∧
      r.discount = (match patchPayload.discount with
        | some x => x | none => sampleGoods.discount) ∧
      r.count = (match patchPayload.count with
        | some c => some c | none => sampleGoods.count) ∧
      r.units = (match patchPayload.units with
        | some u => jsTrim u | none => sampleGoods.units) ∧
      r.image = (match patchPayload.image with
        | some s2 => normalizeImage (some s2) "1"
        | none => sampleGoods.image) ∧
      r.category = (match patchPayload.category with
        | some c => some c | none => sampleGoods.category) :=
  update_frame_spec [sampleGoods] "1" patchPayload 0 sampleGoods rfl
    ⟨rfl, by decide, rfl, by decide, rfl, rfl, rfl, by decide,
      ⟨"image/1.jpg", rfl, rfl⟩, ⟨"c", rfl, by decide⟩⟩
    ⟨fun t ht => by injection ht with h2; subst h2; decide,
     fun t ht => by exact absurd ht (by simp [patchPayload]),
     fun u hu => by exact absurd hu (by simp [patchPayload]),
     fun c hc => by exact absurd hc (by simp [patchPayload])⟩

/-- Counterexample to claim C7 as stated: patching the sample record with
title " New " succeeds, but the fetched record carries the trimmed "New",
not the payload value " New " — a field named in the payload does not carry
the new value verbatim. -/
theorem patch_trims_payload_cex :
    getGoods "1" (updateGoods "1"
        { title := some " New ", description := none, price := none, discount := none,
          count := none, units := none, image := none, category := none }
        [sampleGoods]).1 =
      Except.ok { sampleGoods with title := "New" } ∧
    (" New " : String) ≠ "New" := by
  constructor
  · rfl
  · decide

end CMS
